import Mathlib

/-
Verification of the manifest-level partition pruning evaluator
(crates/iceberg/src/expr/visitors/manifest_evaluator.rs).

The data model and the evaluator are shallowly embedded below. Pure Rust
functions become Lean functions; fallible Rust code returning
`crate::Result` becomes `Except Failure`; a Rust panic (index out of
bounds, `unwrap` on a failed decode) is modelled as the dedicated
`Failure.panicked` outcome, so that "no boolean verdict is produced" is
visible in the result type. Byte buffers are lists of naturals.
-/

namespace Iceberg

/-- Modelled from the spec: the primitive column types of the external type
system (`crate::spec::PrimitiveType` is not part of the provided source).
Only the primitives exercised by the evaluator are included; the evaluator
itself distinguishes only floating-point types from the rest and decodes
bounds through the external `Datum` contract. -/
inductive PrimitiveType where
  | boolean
  | int
  | long
  | float
  | double
  | string
deriving DecidableEq

/-- Modelled from the spec: `crate::spec::Type` (not in the provided
source). Partition summary columns carry a declared primitive type; the
nested variants are never consulted by this evaluator, so only the
primitive constructor is modelled. -/
inductive IcebergType where
  | primitive (p : PrimitiveType)
deriving DecidableEq

/-- Modelled from the spec: `Type::is_floating_type` (not in the provided
source); true exactly for the floating-point primitives. -/
def IcebergType.is_floating_type : IcebergType → Bool
  | .primitive .float => true
  | .primitive .double => true
  | _ => false

/-- Modelled from the spec: `Type::as_primitive_type` (not in the provided
source). With only the primitive constructor modelled it is total, matching
the `unwrap` in `bytes_to_datum` which never fails on partition types. -/
def IcebergType.as_primitive_type : IcebergType → PrimitiveType
  | .primitive p => p

/-- Modelled from the spec: `crate::spec::PrimitiveLiteral` (not in the
provided source), the typed literal payload of a `Datum`. Floating-point
payloads are not modelled (no claim compares floating-point values); a
string payload is its UTF-8 byte sequence. -/
inductive PrimitiveLiteral where
  | boolean (b : Bool)
  | int (v : Int)
  | long (v : Int)
  | string (s : List Nat)
deriving DecidableEq

/-- Modelled from the spec: `crate::spec::Datum` (not in the provided
source), an immutable typed literal value; only the payload consulted by
the evaluator (`Datum::literal`) is modelled. -/
structure Datum where
  literal : PrimitiveLiteral
deriving DecidableEq

/-- Lexicographic strict order on byte sequences, the order `Ord` gives
Rust byte slices: compare pointwise, a strict byte-prefix is smaller. -/
def lexLt : List Nat → List Nat → Bool
  | [], [] => false
  | [], _ :: _ => true
  | _ :: _, [] => false
  | a :: as, b :: bs => decide (a < b) || (a == b && lexLt as bs)

/-- Modelled from the spec: the strict order of `Datum` values via
`PartialOrd` - values of the same primitive type are compared by that type
(two literals of different underlying type are never comparable, so every
cross-type comparison is false). -/
def PrimitiveLiteral.plt : PrimitiveLiteral → PrimitiveLiteral → Bool
  | .boolean a, .boolean b => !a && b
  | .int a, .int b => decide (a < b)
  | .long a, .long b => decide (a < b)
  | .string a, .string b => lexLt a b
  | _, _ => false

/-- Strict `Datum` order: `datumLt a b` is the Rust `a < b`. -/
def datumLt (a b : Datum) : Bool :=
  a.literal.plt b.literal

/-- Non-strict `Datum` order: `datumLe a b` is the Rust `a <= b`, true
when `partial_cmp` is `Less` or `Equal`; false across types. -/
def datumLe (a b : Datum) : Bool :=
  a.literal.plt b.literal || a.literal == b.literal

/-- Two bytes of a little-endian encoding combined into a natural. -/
def leNat : List Nat → Nat
  | [] => 0
  | b :: bs => b + 256 * leNat bs

/-- A little-endian byte list read as a twos-complement integer of
`bytes.length * 8` bits. -/
def leInt (bytes : List Nat) : Int :=
  let n := leNat bytes
  if n < 2 ^ (8 * bytes.length - 1) then (n : Int)
  else (n : Int) - 2 ^ (8 * bytes.length)

/-- Modelled from the spec: `Datum::try_from_bytes` (not in the provided
source), the external decode contract `(bytes, primitive_type) -> literal`
following the table format single-value serialization: booleans are one
byte, ints four little-endian bytes, longs eight, strings their UTF-8
bytes. Floating-point decoding is not modelled (no claim decodes floats);
any undecodable input yields `none`, which `bytes_to_datum` turns into the
modelled panic. -/
def Datum.try_from_bytes (bytes : List Nat) (t : PrimitiveType) : Option Datum :=
  match t, bytes with
  | .boolean, [b] => some ⟨.boolean (b != 0)⟩
  | .int, [b0, b1, b2, b3] => some ⟨.int (leInt [b0, b1, b2, b3])⟩
  | .long, [b0, b1, b2, b3, b4, b5, b6, b7] =>
    some ⟨.long (leInt [b0, b1, b2, b3, b4, b5, b6, b7])⟩
  | .string, bs => some ⟨.string bs⟩
  | _, _ => none

/-- `crate::spec::FieldSummary`: the per-partition-column statistics of a
manifest. Bounds are opaque encoded byte buffers (`ByteBuf`). -/
structure FieldSummary where
  contains_null : Bool
  contains_nan : Option Bool
  lower_bound : Option (List Nat)
  upper_bound : Option (List Nat)
deriving DecidableEq

/-- Modelled from the spec: the slice of `crate::spec::NestedField` the
evaluator reads, namely the declared column type (`field_type`). -/
structure NestedField where
  field_type : IcebergType
deriving DecidableEq

/-- Modelled from the spec: `crate::expr::BoundReference` (not in the
provided source) - a column resolved to a position in the partition
statistics array plus its schema field. `position` models
`reference.accessor().position()` and `field` models `reference.field()`. -/
structure BoundReference where
  position : Nat
  field : NestedField
deriving DecidableEq

/-- Modelled from the spec: `crate::expr::PredicateOperator` (not in the
provided source), the closed set of leaf operators. -/
inductive PredicateOperator where
  | isNull
  | notNull
  | isNan
  | notNan
  | lessThan
  | lessThanOrEq
  | greaterThan
  | greaterThanOrEq
  | eq
  | notEq
  | startsWith
  | notStartsWith
  | isIn
  | notIn
deriving DecidableEq

/-- Modelled from the spec: `crate::expr::BoundPredicate` (not in the
provided source) - the immutable bound expression tree: constants, boolean
connectives, and unary / binary / set leaves over bound references. The
literal set of a set leaf is modelled as a list (`FnvHashSet` iteration
order never matters to the evaluator, which only takes its length and
universally quantified membership tests). -/
inductive BoundPredicate where
  | alwaysTrue
  | alwaysFalse
  | and (lhs rhs : BoundPredicate)
  | or (lhs rhs : BoundPredicate)
  | not (inner : BoundPredicate)
  | unary (op : PredicateOperator) (term : BoundReference)
  | binary (op : PredicateOperator) (term : BoundReference) (literal : Datum)
  | set (op : PredicateOperator) (term : BoundReference) (literals : List Datum)
deriving DecidableEq

/-- `crate::spec::ManifestFile`, restricted to the single field the
evaluator reads: the optional ordered partition field summaries. -/
structure ManifestFile where
  partitions : Option (List FieldSummary)
deriving DecidableEq

/-- The error kinds surfaced by the evaluator (`crate::ErrorKind`). -/
inductive ErrorKind where
  | unexpected
  | dataInvalid
deriving DecidableEq

/-- A failed evaluation: either a returned `Err(Error::new(kind, msg))`, or
a Rust panic (slice index out of range, `unwrap` on a failed bound decode),
modelled as its own outcome so no boolean verdict is fabricated for it. -/
inductive Failure where
  | err (kind : ErrorKind) (message : String)
  | panicked (message : String)
deriving DecidableEq

/-- `crate::Result`. -/
abbrev IResult (α : Type) : Type := Except Failure α

namespace ManifestFilterVisitor

/-- `ROWS_MIGHT_MATCH`: the conservative verdict - the manifest must be
scanned. -/
def ROWS_MIGHT_MATCH : IResult Bool := Except.ok true

/-- `ROWS_CANNOT_MATCH`: the pruning verdict - no row can match. -/
def ROWS_CANNOT_MATCH : IResult Bool := Except.ok false

/-- `IN_PREDICATE_LIMIT`: the cardinality bound above which an In leaf is
not examined against the bounds. -/
def IN_PREDICATE_LIMIT : Nat := 200

/-- `ManifestFilterVisitor::field_summary_for_reference`: index the
partition statistics by the reference position; out of range is a Rust
panic (the upstream binding invariant), modelled as `Failure.panicked`. -/
def field_summary_for_reference (partitions : List FieldSummary)
    (reference : BoundReference) : IResult FieldSummary :=
  match partitions.get? reference.position with
  | some field => Except.ok field
  | none => Except.error (.panicked "index out of bounds")

/-- `ManifestFilterVisitor::are_all_null`: the field is provably all-null
when it contains a null and records no lower bound; for floating-point
columns the NaN status must additionally be known-false, since NaN values
need not be reflected in the bounds. -/
def are_all_null (field : FieldSummary) (t : IcebergType) : Bool :=
  let all_null : Bool := field.contains_null && field.lower_bound.isNone
  if all_null && t.is_floating_type then
    match field.contains_nan with
    | some val => !val
    | none => false
  else
    all_null

/-- `ManifestFilterVisitor::datum_as_str`: project the string payload of a
datum, or report the given message as an `Unexpected` error. -/
def datum_as_str (bound : Datum) (err_msg : String) : IResult (List Nat) :=
  match bound.literal with
  | .string s => Except.ok s
  | _ => Except.error (.err .unexpected err_msg)

/-- `ManifestFilterVisitor::bytes_to_datum`: decode a bound buffer with
the declared column type; both `unwrap`s are modelled panics. -/
def bytes_to_datum (bytes : List Nat) (t : IcebergType) : IResult Datum :=
  match Datum.try_from_bytes bytes t.as_primitive_type with
  | some d => Except.ok d
  | none => Except.error (.panicked "Datum::try_from_bytes failed")

/-- `always_true` handler. -/
def always_true : IResult Bool := ROWS_MIGHT_MATCH

/-- `always_false` handler. -/
def always_false : IResult Bool := ROWS_CANNOT_MATCH

/-- `and` combinator over already-computed child verdicts. -/
def and (lhs rhs : Bool) : IResult Bool := Except.ok (lhs && rhs)

/-- `or` combinator over already-computed child verdicts. -/
def or (lhs rhs : Bool) : IResult Bool := Except.ok (lhs || rhs)

/-- `not` combinator: rejected - range statistics cannot soundly invert a
might-match verdict. -/
def not (_x : Bool) : IResult Bool :=
  Except.error (.err .unexpected "not operator is not supported in partition filter")

/-- `is_null` leaf: might-match exactly when the summary records a null. -/
def is_null (partitions : List FieldSummary) (reference : BoundReference) : IResult Bool :=
  match field_summary_for_reference partitions reference with
  | Except.error e => Except.error e
  | Except.ok field => Except.ok field.contains_null

/-- `not_null` leaf: cannot-match exactly when the field is provably
all-null. -/
def not_null (partitions : List FieldSummary) (reference : BoundReference) : IResult Bool :=
  match field_summary_for_reference partitions reference with
  | Except.error e => Except.error e
  | Except.ok field =>
    if are_all_null field reference.field.field_type then ROWS_CANNOT_MATCH
    else ROWS_MIGHT_MATCH

/-- `is_nan` leaf. -/
def is_nan (partitions : List FieldSummary) (reference : BoundReference) : IResult Bool :=
  match field_summary_for_reference partitions reference with
  | Except.error e => Except.error e
  | Except.ok field =>
    if field.contains_nan == some false then ROWS_CANNOT_MATCH
    else if are_all_null field reference.field.field_type then ROWS_CANNOT_MATCH
    else ROWS_MIGHT_MATCH

/-- `not_nan` leaf. -/
def not_nan (partitions : List FieldSummary) (reference : BoundReference) : IResult Bool :=
  match field_summary_for_reference partitions reference with
  | Except.error e => Except.error e
  | Except.ok field =>
    if (match field.contains_nan with
        | some contains_nan =>
          contains_nan && !field.contains_null && field.lower_bound.isNone
        | none => false) then ROWS_CANNOT_MATCH
    else ROWS_MIGHT_MATCH

/-- `less_than` leaf. -/
def less_than (partitions : List FieldSummary) (reference : BoundReference)
    (datum : Datum) : IResult Bool :=
  match field_summary_for_reference partitions reference with
  | Except.error e => Except.error e
  | Except.ok field =>
    match field.lower_bound with
    | some bound_bytes =>
      match bytes_to_datum bound_bytes reference.field.field_type with
      | Except.error e => Except.error e
      | Except.ok bound =>
        if datumLe datum bound then ROWS_CANNOT_MATCH else ROWS_MIGHT_MATCH
    | none => ROWS_CANNOT_MATCH

/-- `less_than_or_eq` leaf. -/
def less_than_or_eq (partitions : List FieldSummary) (reference : BoundReference)
    (datum : Datum) : IResult Bool :=
  match field_summary_for_reference partitions reference with
  | Except.error e => Except.error e
  | Except.ok field =>
    match field.lower_bound with
    | some bound_bytes =>
      match bytes_to_datum bound_bytes reference.field.field_type with
      | Except.error e => Except.error e
      | Except.ok bound =>
        if datumLt datum bound then ROWS_CANNOT_MATCH else ROWS_MIGHT_MATCH
    | none => ROWS_CANNOT_MATCH

/-- `greater_than` leaf. -/
def greater_than (partitions : List FieldSummary) (reference : BoundReference)
    (datum : Datum) : IResult Bool :=
  match field_summary_for_reference partitions reference with
  | Except.error e => Except.error e
  | Except.ok field =>
    match field.upper_bound with
    | some bound_bytes =>
      match bytes_to_datum bound_bytes reference.field.field_type with
      | Except.error e => Except.error e
      | Except.ok bound =>
        if datumLe bound datum then ROWS_CANNOT_MATCH else ROWS_MIGHT_MATCH
    | none => ROWS_CANNOT_MATCH

/-- `greater_than_or_eq` leaf. -/
def greater_than_or_eq (partitions : List FieldSummary) (reference : BoundReference)
    (datum : Datum) : IResult Bool :=
  match field_summary_for_reference partitions reference with
  | Except.error e => Except.error e
  | Except.ok field =>
    match field.upper_bound with
    | some bound_bytes =>
      match bytes_to_datum bound_bytes reference.field.field_type with
      | Except.error e => Except.error e
      | Except.ok bound =>
        if datumLt bound datum then ROWS_CANNOT_MATCH else ROWS_MIGHT_MATCH
    | none => ROWS_CANNOT_MATCH

/-- `eq` leaf. -/
def eq (partitions : List FieldSummary) (reference : BoundReference)
    (datum : Datum) : IResult Bool :=
  match field_summary_for_reference partitions reference with
  | Except.error e => Except.error e
  | Except.ok field =>
    if field.lower_bound.isNone || field.upper_bound.isNone then ROWS_CANNOT_MATCH
    else
      match field.lower_bound with
      | some lower_bound_bytes =>
        match bytes_to_datum lower_bound_bytes reference.field.field_type with
        | Except.error e => Except.error e
        | Except.ok lower_bound =>
          if datumLt datum lower_bound then ROWS_CANNOT_MATCH
          else
            match field.upper_bound with
            | some upper_bound_bytes =>
              match bytes_to_datum upper_bound_bytes reference.field.field_type with
              | Except.error e => Except.error e
              | Except.ok upper_bound =>
                if datumLt upper_bound datum then ROWS_CANNOT_MATCH
                else ROWS_MIGHT_MATCH
            | none => ROWS_MIGHT_MATCH
      | none => ROWS_CANNOT_MATCH

/-- `not_eq` leaf: the bounds are not necessarily attained, so a specific
value can never be proved absent - always might-match. -/
def not_eq (_partitions : List FieldSummary) (_reference : BoundReference)
    (_datum : Datum) : IResult Bool :=
  ROWS_MIGHT_MATCH

/-- `starts_with` leaf: cannot-match when either bound is absent, or the
whole prefix compares below the truncated lower bound, or above the
truncated upper bound (each bound cut to the shorter of its length and the
prefix length; the prefix itself is never cut). -/
def starts_with (partitions : List FieldSummary) (reference : BoundReference)
    (datum : Datum) : IResult Bool :=
  match field_summary_for_reference partitions reference with
  | Except.error e => Except.error e
  | Except.ok field =>
    if field.lower_bound.isNone || field.upper_bound.isNone then ROWS_CANNOT_MATCH
    else
      match datum_as_str datum "Cannot perform starts_with on non-string value" with
      | Except.error e => Except.error e
      | Except.ok pfx =>
        let prefix_len := pfx.length
        if (match field.lower_bound with
            | some lower_bound =>
              lexLt pfx (lower_bound.take (min lower_bound.length prefix_len))
            | none => false) then ROWS_CANNOT_MATCH
        else if (match field.upper_bound with
            | some upper_bound =>
              lexLt (upper_bound.take (min upper_bound.length prefix_len)) pfx
            | none => false) then ROWS_CANNOT_MATCH
        else ROWS_MIGHT_MATCH

/-- `not_starts_with` leaf: might-match unless every value provably starts
with the prefix, which requires no nulls and both bounds equal to the
prefix over its whole length. -/
def not_starts_with (partitions : List FieldSummary) (reference : BoundReference)
    (datum : Datum) : IResult Bool :=
  match field_summary_for_reference partitions reference with
  | Except.error e => Except.error e
  | Except.ok field =>
    if field.contains_null || field.lower_bound.isNone || field.upper_bound.isNone then
      ROWS_MIGHT_MATCH
    else
      match datum_as_str datum "Cannot perform not_starts_with on non-string value" with
      | Except.error e => Except.error e
      | Except.ok pfx =>
        let prefix_len := pfx.length
        match field.lower_bound with
        | some lower_bound =>
          if prefix_len > lower_bound.length then ROWS_MIGHT_MATCH
          else if pfx == lower_bound.take prefix_len then
            match field.upper_bound with
            | some upper_bound =>
              if prefix_len > upper_bound.length then ROWS_MIGHT_MATCH
              else if pfx == upper_bound.take prefix_len then ROWS_CANNOT_MATCH
              else ROWS_MIGHT_MATCH
            | none => ROWS_MIGHT_MATCH
          else ROWS_MIGHT_MATCH
        | none => ROWS_MIGHT_MATCH

/-- `r#in` leaf: cannot-match with no lower bound; above the cardinality
limit always might-match; otherwise cannot-match when the whole set lies
strictly below the decoded lower bound or strictly above the decoded upper
bound. -/
def r_in (partitions : List FieldSummary) (reference : BoundReference)
    (literals : List Datum) : IResult Bool :=
  match field_summary_for_reference partitions reference with
  | Except.error e => Except.error e
  | Except.ok field =>
    if field.lower_bound.isNone then ROWS_CANNOT_MATCH
    else if literals.length > IN_PREDICATE_LIMIT then ROWS_MIGHT_MATCH
    else
      match field.lower_bound with
      | some lower_bound_bytes =>
        match bytes_to_datum lower_bound_bytes reference.field.field_type with
        | Except.error e => Except.error e
        | Except.ok lower_bound =>
          if literals.all (fun datum => datumLt datum lower_bound) then ROWS_CANNOT_MATCH
          else
            match field.upper_bound with
            | some upper_bound_bytes =>
              match bytes_to_datum upper_bound_bytes reference.field.field_type with
              | Except.error e => Except.error e
              | Except.ok upper_bound =>
                if literals.all (fun datum => datumLt upper_bound datum) then
                  ROWS_CANNOT_MATCH
                else ROWS_MIGHT_MATCH
            | none => ROWS_MIGHT_MATCH
      | none => ROWS_CANNOT_MATCH

/-- `not_in` leaf: always might-match, as with `not_eq`. -/
def not_in (_partitions : List FieldSummary) (_reference : BoundReference)
    (_literals : List Datum) : IResult Bool :=
  ROWS_MIGHT_MATCH

end ManifestFilterVisitor

/-- Modelled from the spec: the Predicate Traversal Engine
(`bound_predicate_visitor::visit`, not in the provided source). Per the
spec it recurses bottom-up: for the boolean connectives the operands are
evaluated first (an operand failure propagates before the next operand is
visited) and the matching combinator receives the computed child verdicts;
a leaf is dispatched by operator to the matching handler with its
reference and literal or literal set; a leaf operator in the wrong node
shape is a data-invalid error. -/
def visit (partitions : List FieldSummary) : BoundPredicate → IResult Bool
  | .alwaysTrue => ManifestFilterVisitor.always_true
  | .alwaysFalse => ManifestFilterVisitor.always_false
  | .and lhs rhs =>
    match visit partitions lhs with
    | Except.error e => Except.error e
    | Except.ok l =>
      match visit partitions rhs with
      | Except.error e => Except.error e
      | Except.ok r => ManifestFilterVisitor.and l r
  | .or lhs rhs =>
    match visit partitions lhs with
    | Except.error e => Except.error e
    | Except.ok l =>
      match visit partitions rhs with
      | Except.error e => Except.error e
      | Except.ok r => ManifestFilterVisitor.or l r
  | .not inner =>
    match visit partitions inner with
    | Except.error e => Except.error e
    | Except.ok v => ManifestFilterVisitor.not v
  | .unary op term =>
    match op with
    | .isNull => ManifestFilterVisitor.is_null partitions term
    | .notNull => ManifestFilterVisitor.not_null partitions term
    | .isNan => ManifestFilterVisitor.is_nan partitions term
    | .notNan => ManifestFilterVisitor.not_nan partitions term
    | _ => Except.error (.err .dataInvalid "Unexpected operator for unary predicate")
  | .binary op term literal =>
    match op with
    | .lessThan => ManifestFilterVisitor.less_than partitions term literal
    | .lessThanOrEq => ManifestFilterVisitor.less_than_or_eq partitions term literal
    | .greaterThan => ManifestFilterVisitor.greater_than partitions term literal
    | .greaterThanOrEq => ManifestFilterVisitor.greater_than_or_eq partitions term literal
    | .eq => ManifestFilterVisitor.eq partitions term literal
    | .notEq => ManifestFilterVisitor.not_eq partitions term literal
    | .startsWith => ManifestFilterVisitor.starts_with partitions term literal
    | .notStartsWith => ManifestFilterVisitor.not_starts_with partitions term literal
    | _ => Except.error (.err .dataInvalid "Unexpected operator for binary predicate")
  | .set op term literals =>
    match op with
    | .isIn => ManifestFilterVisitor.r_in partitions term literals
    | .notIn => ManifestFilterVisitor.not_in partitions term literals
    | _ => Except.error (.err .dataInvalid "Unexpected operator for set predicate")

/-- Modelled from the spec: `PredicateOperator::negate` (not in the
provided source) - operator inversion used by negation elimination. -/
def PredicateOperator.negate : PredicateOperator → PredicateOperator
  | .isNull => .notNull
  | .notNull => .isNull
  | .isNan => .notNan
  | .notNan => .isNan
  | .lessThan => .greaterThanOrEq
  | .lessThanOrEq => .greaterThan
  | .greaterThan => .lessThanOrEq
  | .greaterThanOrEq => .lessThan
  | .eq => .notEq
  | .notEq => .eq
  | .startsWith => .notStartsWith
  | .notStartsWith => .startsWith
  | .isIn => .notIn
  | .notIn => .isIn

mutual

/-- Modelled from the spec: `BoundPredicate::rewrite_not` (not in the
provided source) - negation elimination, recursively pushing `Not` through
the tree with De Morgan for the connectives and operator inversion for the
leaves, yielding an equivalent tree with no `Not` node. -/
def BoundPredicate.rewrite_not : BoundPredicate → BoundPredicate
  | .alwaysTrue => .alwaysTrue
  | .alwaysFalse => .alwaysFalse
  | .and lhs rhs => .and lhs.rewrite_not rhs.rewrite_not
  | .or lhs rhs => .or lhs.rewrite_not rhs.rewrite_not
  | .not inner => inner.negate
  | .unary op term => .unary op term
  | .binary op term literal => .binary op term literal
  | .set op term literals => .set op term literals

/-- Modelled from the spec: logical negation of a bound predicate, the
helper of negation elimination. -/
def BoundPredicate.negate : BoundPredicate → BoundPredicate
  | .alwaysTrue => .alwaysFalse
  | .alwaysFalse => .alwaysTrue
  | .and lhs rhs => .or lhs.negate rhs.negate
  | .or lhs rhs => .and lhs.negate rhs.negate
  | .not inner => inner.rewrite_not
  | .unary op term => .unary op.negate term
  | .binary op term literal => .binary op.negate term literal
  | .set op term literals => .set op.negate term literals

end

/-- `ManifestEvaluator`: holds the (possibly rewritten) partition filter. -/
structure ManifestEvaluator where
  partition_filter : BoundPredicate
deriving DecidableEq

/-- `ManifestEvaluator::eval`: with no partition statistics (absent or
empty) there is nothing to prune on, so the manifest might match;
otherwise run the filter visitor over the statistics. -/
def ManifestEvaluator.eval (self : ManifestEvaluator)
    (manifest_file : ManifestFile) : IResult Bool :=
  match manifest_file.partitions with
  | some p => if !p.isEmpty then visit p self.partition_filter else Except.ok true
  | none => Except.ok true

/-- `ManifestEvaluatorBuilder`: the filter plus the flag selecting whether
negation elimination is applied before the evaluator is finalized. -/
structure ManifestEvaluatorBuilder where
  partition_filter : BoundPredicate
  rewrite_not : Bool
deriving DecidableEq

/-- `ManifestEvaluatorBuilder::new`: negation elimination defaults to
disabled. -/
def ManifestEvaluatorBuilder.new (partition_filter : BoundPredicate) :
    ManifestEvaluatorBuilder :=
  { partition_filter := partition_filter, rewrite_not := false }

/-- `ManifestEvaluatorBuilder::with_rewrite_not`. -/
def ManifestEvaluatorBuilder.with_rewrite_not (self : ManifestEvaluatorBuilder)
    (rewrite_not : Bool) : ManifestEvaluatorBuilder :=
  { self with rewrite_not := rewrite_not }

/-- `ManifestEvaluatorBuilder::build`: apply negation elimination exactly
when the flag is set. -/
def ManifestEvaluatorBuilder.build (self : ManifestEvaluatorBuilder) :
    ManifestEvaluator :=
  if self.rewrite_not then
    { partition_filter := self.partition_filter.rewrite_not }
  else
    { partition_filter := self.partition_filter }

/-!
Claim-side vocabulary: definitions written from the wording of the spec
sentences under scrutiny, to be compared with the embedded code above.
-/

/-- The all-null invariant as §3 of the spec words it: `contains_null` is
true and `lower_bound` is absent, and for floating-point columns
additionally `contains_nan` is known-false. -/
def definitely_all_null (field : FieldSummary) (t : IcebergType) : Bool :=
  field.contains_null && field.lower_bound.isNone &&
    (if t.is_floating_type then field.contains_nan == some false else true)

/-- The StartsWith rule exactly as the claim words it: with both bounds
present, cannot-match when the prefix and the lower bound, BOTH truncated
to the shorter of the two lengths, compare lexicographically below, or the
prefix similarly truncated-compared against the truncated upper bound is
above; with either bound absent, cannot-match; otherwise might-match. -/
def starts_with_rule_claimed (field : FieldSummary) (p : List Nat) : IResult Bool :=
  match field.lower_bound, field.upper_bound with
  | some lower, some upper =>
    let m1 := min lower.length p.length
    let m2 := min upper.length p.length
    if lexLt (p.take m1) (lower.take m1) then Except.ok false
    else if lexLt (upper.take m2) (p.take m2) then Except.ok false
    else Except.ok true
  | _, _ => Except.ok false

/-- The StartsWith rule as amended to match the code: the lower-bound
comparison truncates both sides to the shorter length (equivalent to the
code, which cuts only the bound), but the upper-bound comparison pits the
WHOLE prefix against the truncated upper bound, so a prefix that extends
the truncated upper bound strictly is already above it. -/
def starts_with_rule_amended (field : FieldSummary) (p : List Nat) : IResult Bool :=
  match field.lower_bound, field.upper_bound with
  | some lower, some upper =>
    let m1 := min lower.length p.length
    let m2 := min upper.length p.length
    if lexLt (p.take m1) (lower.take m1) then Except.ok false
    else if lexLt (upper.take m2) p then Except.ok false
    else Except.ok true
  | _, _ => Except.ok false

/-- Whether a predicate tree contains a `Not` node anywhere. -/
def contains_not : BoundPredicate → Bool
  | .and lhs rhs => contains_not lhs || contains_not rhs
  | .or lhs rhs => contains_not lhs || contains_not rhs
  | .not _ => true
  | _ => false

/-- Whether a datum carries a string-typed value. -/
def Datum.is_string_value (d : Datum) : Bool :=
  match d.literal with
  | .string _ => true
  | _ => false

/-!
Concrete statistics drawn from the scenarios in §8 of the spec (and the
test module of the source): the `id` column with integer bounds 30 and 79,
the all-null string column, and the `some_nulls` string column with bounds
"a" (byte 97) and "z" (byte 122). String bounds are their UTF-8 bytes and
integer bounds their four little-endian bytes.
-/

/-- The `id` column summary: no nulls, bounds 30 and 79 encoded as
four-byte little-endian integers. -/
def id_summary : FieldSummary :=
  { contains_null := false
    contains_nan := none
    lower_bound := some [30, 0, 0, 0]
    upper_bound := some [79, 0, 0, 0] }

/-- The `all_nulls_missing_nan` column summary: a null recorded, no NaN
information, no bounds. -/
def all_nulls_missing_nan_summary : FieldSummary :=
  { contains_null := true
    contains_nan := none
    lower_bound := none
    upper_bound := none }

/-- The `some_nulls` column summary: a null recorded, string bounds "a"
and "z". -/
def some_nulls_summary : FieldSummary :=
  { contains_null := true
    contains_nan := none
    lower_bound := some [97]
    upper_bound := some [122] }

/-- The partition statistics array of the scenario manifest, positions 0,
1 and 2. -/
def test_partitions : List FieldSummary :=
  [id_summary, all_nulls_missing_nan_summary, some_nulls_summary]

/-- A bound reference to the string column `some_nulls` at position 2. -/
def ref_some_nulls : BoundReference :=
  { position := 2, field := { field_type := .primitive .string } }

/-!
Helper lemmas shared by the claim theorems.
-/

/-- Comparing a list `p` against a list `q` no longer than `p` only sees
the first `q.length` elements of `p`: the strict-prefix case of the
lexicographic order cannot fire against a shorter right-hand side. -/
theorem lexLt_take_of_length_le (p q : List Nat) (h : q.length ≤ p.length) :
    lexLt p q = lexLt (p.take q.length) q := by
  induction q generalizing p with
  | nil =>
    cases p with
    | nil => rfl
    | cons a as => rfl
  | cons b bs ih =>
    cases p with
    | nil => simp at h
    | cons a as =>
      simp only [List.length_cons, Nat.add_le_add_iff_right] at h
      simp only [List.take_succ_cons, lexLt]
      rw [ih as h]

/-- The code-side all-null test agrees with the spec wording everywhere. -/
theorem are_all_null_eq_definitely_all_null (field : FieldSummary) (t : IcebergType) :
    ManifestFilterVisitor.are_all_null field t = definitely_all_null field t := by
  unfold ManifestFilterVisitor.are_all_null definitely_all_null
  cases hnull : field.contains_null <;>
    cases hlow : field.lower_bound <;>
      cases hfloat : t.is_floating_type <;>
        cases hnan : field.contains_nan <;>
          simp [hnull, hlow, hfloat, hnan]

/-!
Claim theorems.
-/

/-- C2: against the concrete statistics where the string column
`some_nulls` has lower bound "a", upper bound "z" and records a null, the
StartsWith leaf answers might-match for the prefix "a" and cannot-match
for the prefix "zzzz". -/
theorem c2_starts_with_concrete :
    ManifestFilterVisitor.starts_with test_partitions ref_some_nulls ⟨.string [97]⟩ =
      Except.ok true ∧
    ManifestFilterVisitor.starts_with test_partitions ref_some_nulls
      ⟨.string [122, 122, 122, 122]⟩ = Except.ok false :=
  ⟨rfl, rfl⟩

/-- C3: whenever the manifest carries no partition statistics - the field
is absent or the list is empty - `eval` answers might-match for every
predicate, with no error. -/
theorem c3_eval_no_stats_might_match (pred : BoundPredicate) (m : ManifestFile)
    (h : m.partitions = none ∨ m.partitions = some []) :
    ManifestEvaluator.eval ⟨pred⟩ m = Except.ok true := by
  obtain ⟨ps⟩ := m
  rcases h with h | h
  · have hps : ps = none := h
    subst hps
    rfl
  · have hps : ps = some [] := h
    subst hps
    rfl

/-- Witness for C3 at a concrete input: even a bare Not predicate
evaluates to might-match on a manifest without statistics. -/
theorem c3_eval_no_stats_might_match_witness :
    ManifestEvaluator.eval ⟨.not .alwaysTrue⟩ ⟨none⟩ = Except.ok true :=
  c3_eval_no_stats_might_match (.not .alwaysTrue) ⟨none⟩ (Or.inl rfl)

/-- C4 counterexample: on a manifest with no partition statistics the
AlwaysFalse predicate evaluates to might-match, not to cannot-match as the
claim asserts for every statistics S. -/
theorem c4_counterexample :
    ManifestEvaluator.eval ⟨.alwaysFalse⟩ ⟨none⟩ = Except.ok true ∧
    ¬ ManifestEvaluator.eval ⟨.alwaysFalse⟩ ⟨none⟩ = Except.ok false := by
  refine ⟨rfl, ?_⟩
  intro h
  rw [show ManifestEvaluator.eval ⟨.alwaysFalse⟩ ⟨none⟩ = Except.ok true from rfl] at h
  simp at h

/-- C4 as amended: AlwaysTrue evaluates to might-match on every manifest;
AlwaysFalse evaluates to cannot-match on every manifest whose partition
statistics are present and nonempty (with absent or empty statistics,
`eval` short-circuits to might-match for every predicate, AlwaysFalse
included). -/
theorem c4_always_true_false_amended :
    (∀ m : ManifestFile, ManifestEvaluator.eval ⟨.alwaysTrue⟩ m = Except.ok true) ∧
    (∀ (m : ManifestFile) (stats : List FieldSummary),
      m.partitions = some stats → stats ≠ [] →
      ManifestEvaluator.eval ⟨.alwaysFalse⟩ m = Except.ok false) := by
  constructor
  · intro m
    obtain ⟨ps⟩ := m
    match ps with
    | none => rfl
    | some [] => rfl
    | some (a :: as) => rfl
  · intro m stats h hne
    obtain ⟨ps⟩ := m
    have hps : ps = some stats := h
    subst hps
    match stats, hne with
    | a :: as, _ => rfl

/-- Witness for C4 as amended, at concrete inputs: AlwaysTrue on an empty
manifest, AlwaysFalse on a one-column manifest. -/
theorem c4_always_true_false_amended_witness :
    ManifestEvaluator.eval ⟨.alwaysTrue⟩ ⟨none⟩ = Except.ok true ∧
    ManifestEvaluator.eval ⟨.alwaysFalse⟩ ⟨some [id_summary]⟩ = Except.ok false :=
  ⟨c4_always_true_false_amended.1 ⟨none⟩,
   c4_always_true_false_amended.2 ⟨some [id_summary]⟩ [id_summary] rfl
     (List.cons_ne_nil _ _)⟩

/-- C6: the NotNull leaf answers cannot-match exactly when the referenced
field is definitely all-null - `contains_null` with no lower bound, and
for floating-point columns additionally NaN status known-false; in every
other case, including a floating-point column with unknown NaN status, it
answers might-match. -/
theorem c6_not_null_rule (partitions : List FieldSummary) (reference : BoundReference)
    (fs : FieldSummary)
    (h : ManifestFilterVisitor.field_summary_for_reference partitions reference =
      Except.ok fs) :
    ManifestFilterVisitor.not_null partitions reference =
      (if definitely_all_null fs reference.field.field_type then Except.ok false
       else Except.ok true) := by
  have hcode : ManifestFilterVisitor.not_null partitions reference =
      (if ManifestFilterVisitor.are_all_null fs reference.field.field_type then
        Except.ok false
       else Except.ok true) := by
    unfold ManifestFilterVisitor.not_null
    rw [h]
    rfl
  rw [hcode, are_all_null_eq_definitely_all_null]

/-- Witness for C6 at concrete inputs: the all-null summary prunes under a
string column type but not under a floating-point column type with
unknown NaN status. -/
theorem c6_not_null_rule_witness :
    ManifestFilterVisitor.not_null [all_nulls_missing_nan_summary]
      ⟨0, ⟨.primitive .string⟩⟩ = Except.ok false ∧
    ManifestFilterVisitor.not_null [all_nulls_missing_nan_summary]
      ⟨0, ⟨.primitive .float⟩⟩ = Except.ok true :=
  ⟨(c6_not_null_rule [all_nulls_missing_nan_summary] ⟨0, ⟨.primitive .string⟩⟩
      all_nulls_missing_nan_summary rfl).trans rfl,
   (c6_not_null_rule [all_nulls_missing_nan_summary] ⟨0, ⟨.primitive .float⟩⟩
      all_nulls_missing_nan_summary rfl).trans rfl⟩

/-- C9: the NotEq and NotIn leaves answer might-match for every field
summary, literal and literal set, and never produce an error. -/
theorem c9_not_eq_not_in_always_might_match (partitions : List FieldSummary)
    (reference : BoundReference) (datum : Datum) (literals : List Datum) :
    ManifestFilterVisitor.not_eq partitions reference datum = Except.ok true ∧
    ManifestFilterVisitor.not_in partitions reference literals = Except.ok true :=
  ⟨rfl, rfl⟩

/-- C10: an In leaf over a field summary with no lower bound answers
cannot-match whatever the literal set, because the absent-lower-bound
check precedes the cardinality limit. -/
theorem c10_in_no_lower_bound (partitions : List FieldSummary)
    (reference : BoundReference) (literals : List Datum) (fs : FieldSummary)
    (h : ManifestFilterVisitor.field_summary_for_reference partitions reference =
      Except.ok fs)
    (hlb : fs.lower_bound = none) :
    ManifestFilterVisitor.r_in partitions reference literals = Except.ok false := by
  unfold ManifestFilterVisitor.r_in
  rw [h]
  simp [hlb, ManifestFilterVisitor.ROWS_CANNOT_MATCH]

/-- Witness for C10 at a concrete input: a 201-element set, above the
cardinality limit, still prunes when the lower bound is absent. -/
theorem c10_in_no_lower_bound_witness :
    ManifestFilterVisitor.r_in [all_nulls_missing_nan_summary]
      ⟨0, ⟨.primitive .int⟩⟩ (List.replicate 201 ⟨.int 0⟩) = Except.ok false ∧
    (List.replicate 201 (⟨.int 0⟩ : Datum)).length >
      ManifestFilterVisitor.IN_PREDICATE_LIMIT :=
  ⟨c10_in_no_lower_bound [all_nulls_missing_nan_summary] ⟨0, ⟨.primitive .int⟩⟩
      (List.replicate 201 ⟨.int 0⟩) all_nulls_missing_nan_summary rfl rfl,
   by rw [List.length_replicate]; decide⟩

/-- C1 counterexample: on the `some_nulls` summary (bounds "a" and "z")
with the prefix "zzzz", neither truncated-to-the-shorter-length comparison
of the claim fires - the truncated prefix "z" equals the truncated upper
bound "z" - so the claim as stated answers might-match, yet the code
answers cannot-match because it compares the WHOLE prefix against the
truncated upper bound. -/
theorem c1_counterexample :
    ManifestFilterVisitor.starts_with test_partitions ref_some_nulls
      ⟨.string [122, 122, 122, 122]⟩ = Except.ok false ∧
    starts_with_rule_claimed some_nulls_summary [122, 122, 122, 122] =
      Except.ok true :=
  ⟨rfl, rfl⟩

/-- C1 as amended: with both bounds present the StartsWith leaf answers
cannot-match exactly when the prefix truncated-compared against the
truncated lower bound is lexicographically below it, or the WHOLE prefix
compared against the truncated upper bound is lexicographically above it
(only the bound is cut to the shorter of the two lengths on the upper
side); with either bound absent it answers cannot-match; otherwise
might-match. -/
theorem c1_starts_with_rule_amended (partitions : List FieldSummary)
    (reference : BoundReference) (p : List Nat) (fs : FieldSummary)
    (h : ManifestFilterVisitor.field_summary_for_reference partitions reference =
      Except.ok fs) :
    ManifestFilterVisitor.starts_with partitions reference ⟨.string p⟩ =
      starts_with_rule_amended fs p := by
  unfold ManifestFilterVisitor.starts_with starts_with_rule_amended
  rw [h]
  cases hlow : fs.lower_bound with
  | none =>
    cases hup : fs.upper_bound <;>
      simp [hlow, hup, ManifestFilterVisitor.ROWS_CANNOT_MATCH]
  | some lower =>
    cases hup : fs.upper_bound with
    | none => simp [hlow, hup, ManifestFilterVisitor.ROWS_CANNOT_MATCH]
    | some upper =>
      have hlen : (lower.take (min lower.length p.length)).length ≤ p.length := by
        rw [List.length_take]
        omega
      have htake : (lower.take (min lower.length p.length)).length =
          min lower.length p.length := by
        rw [List.length_take]
        omega
      simp only [hlow, hup, Option.isNone_some, Bool.or_self, Bool.false_eq_true,
        if_false, ManifestFilterVisitor.datum_as_str]
      rw [lexLt_take_of_length_le p _ hlen, htake]
      rfl

/-- Witness for C1 as amended, at a concrete input: the prefix "a" on the
`some_nulls` summary, where leaf and rule both answer might-match. -/
theorem c1_starts_with_rule_amended_witness :
    ManifestFilterVisitor.starts_with [some_nulls_summary]
      ⟨0, ⟨.primitive .string⟩⟩ ⟨.string [97]⟩ = Except.ok true ∧
    starts_with_rule_amended some_nulls_summary [97] = Except.ok true :=
  ⟨(c1_starts_with_rule_amended [some_nulls_summary] ⟨0, ⟨.primitive .string⟩⟩
      [97] some_nulls_summary rfl).trans rfl,
   rfl⟩

/-- Once a subtree contains a Not node, the traversal cannot deliver a
verdict: either an operand already fails, or the rejected `not` combinator
is reached. -/
theorem visit_error_of_contains_not (stats : List FieldSummary)
    (p : BoundPredicate) (h : contains_not p = true) :
    ∃ e, visit stats p = Except.error e := by
  induction p with
  | alwaysTrue => simp [contains_not] at h
  | alwaysFalse => simp [contains_not] at h
  | and lhs rhs ihl ihr =>
    rw [contains_not, Bool.or_eq_true] at h
    cases hv : visit stats lhs with
    | error e => exact ⟨e, by rw [visit, hv]⟩
    | ok l =>
      rcases h with h | h
      · obtain ⟨e, he⟩ := ihl h
        rw [he] at hv
        exact absurd hv (by simp)
      · obtain ⟨e, he⟩ := ihr h
        exact ⟨e, by rw [visit, hv, he]⟩
  | or lhs rhs ihl ihr =>
    rw [contains_not, Bool.or_eq_true] at h
    cases hv : visit stats lhs with
    | error e => exact ⟨e, by rw [visit, hv]⟩
    | ok l =>
      rcases h with h | h
      · obtain ⟨e, he⟩ := ihl h
        rw [he] at hv
        exact absurd hv (by simp)
      · obtain ⟨e, he⟩ := ihr h
        exact ⟨e, by rw [visit, hv, he]⟩
  | not inner ih =>
    cases hv : visit stats inner with
    | error e => exact ⟨e, by rw [visit, hv]⟩
    | ok v =>
      exact ⟨.err .unexpected "not operator is not supported in partition filter",
        by rw [visit, hv]; rfl⟩
  | unary op term => simp [contains_not] at h
  | binary op term literal => simp [contains_not] at h
  | set op term literals => simp [contains_not] at h

/-- C5 counterexample: an evaluator built without the negation rewrite
from a predicate containing Not returns the boolean verdict might-match -
not an error - on a manifest without partition statistics, against the
claim's assertion for every manifest statistics S. -/
theorem c5_counterexample :
    ((ManifestEvaluatorBuilder.new (.not .alwaysTrue)).build).eval ⟨none⟩ =
      Except.ok true :=
  rfl

/-- C5 as amended: for every predicate containing a Not node, an evaluator
built without the negation rewrite returns an error - not a boolean
verdict - on every manifest whose partition statistics are present and
nonempty (with absent or empty statistics `eval` short-circuits to
might-match without traversing the predicate). -/
theorem c5_not_errors_amended (pred : BoundPredicate) (m : ManifestFile)
    (stats : List FieldSummary) (hnot : contains_not pred = true)
    (hp : m.partitions = some stats) (hne : stats ≠ []) :
    ∃ e, ((ManifestEvaluatorBuilder.new pred).build).eval m = Except.error e := by
  obtain ⟨ps⟩ := m
  have hps : ps = some stats := hp
  subst hps
  match stats, hne with
  | a :: as, _ =>
    obtain ⟨e, he⟩ := visit_error_of_contains_not (a :: as) pred hnot
    exact ⟨e, by
      simp only [ManifestEvaluatorBuilder.new, ManifestEvaluatorBuilder.build,
        ManifestEvaluator.eval, if_false]
      simpa using he⟩

/-- Witness for C5 as amended, at a concrete input: Not(AlwaysTrue)
against a one-column manifest. -/
theorem c5_not_errors_amended_witness :
    contains_not (.not .alwaysTrue) = true ∧
    ∃ e, ((ManifestEvaluatorBuilder.new (.not .alwaysTrue)).build).eval
      ⟨some [id_summary]⟩ = Except.error e :=
  ⟨rfl, c5_not_errors_amended (.not .alwaysTrue) ⟨some [id_summary]⟩ [id_summary]
    rfl rfl (List.cons_ne_nil _ _)⟩

/-- C7: the In leaf answers cannot-match when the field has no lower
bound; with a lower bound and more than 200 literals it answers
might-match regardless of the bounds; otherwise it answers cannot-match
when every member of the set is strictly below the decoded lower bound or
every member is strictly above the decoded upper bound (when one is
present), and might-match in all other cases. -/
theorem c7_in_rule (partitions : List FieldSummary) (reference : BoundReference)
    (literals : List Datum) (fs : FieldSummary)
    (h : ManifestFilterVisitor.field_summary_for_reference partitions reference =
      Except.ok fs) :
    (fs.lower_bound = none →
      ManifestFilterVisitor.r_in partitions reference literals = Except.ok false)
    ∧ (∀ lb, fs.lower_bound = some lb →
        literals.length > ManifestFilterVisitor.IN_PREDICATE_LIMIT →
        ManifestFilterVisitor.r_in partitions reference literals = Except.ok true)
    ∧ (∀ lb lower, fs.lower_bound = some lb →
        ManifestFilterVisitor.bytes_to_datum lb reference.field.field_type =
          Except.ok lower →
        literals.length ≤ ManifestFilterVisitor.IN_PREDICATE_LIMIT →
        ((literals.all (fun d => datumLt d lower) = true →
           ManifestFilterVisitor.r_in partitions reference literals = Except.ok false)
         ∧ (∀ ub upper, fs.upper_bound = some ub →
             ManifestFilterVisitor.bytes_to_datum ub reference.field.field_type =
               Except.ok upper →
             literals.all (fun d => datumLt upper d) = true →
             ManifestFilterVisitor.r_in partitions reference literals = Except.ok false)
         ∧ (literals.all (fun d => datumLt d lower) = false →
            (fs.upper_bound = none ∨
              ∃ ub upper, fs.upper_bound = some ub ∧
                ManifestFilterVisitor.bytes_to_datum ub reference.field.field_type =
                  Except.ok upper ∧
                literals.all (fun d => datumLt upper d) = false) →
            ManifestFilterVisitor.r_in partitions reference literals =
              Except.ok true))) := by
  refine ⟨?_, ?_, ?_⟩
  · intro hlb
    unfold ManifestFilterVisitor.r_in
    rw [h]
    simp [hlb, ManifestFilterVisitor.ROWS_CANNOT_MATCH]
  · intro lb hlb hlen
    unfold ManifestFilterVisitor.r_in
    rw [h]
    simp [hlb, hlen, ManifestFilterVisitor.ROWS_MIGHT_MATCH]
  · intro lb lower hlb hdec hlen
    have hlen2 : ¬ literals.length > ManifestFilterVisitor.IN_PREDICATE_LIMIT :=
      Nat.not_lt.mpr hlen
    refine ⟨?_, ?_, ?_⟩
    · intro hall
      unfold ManifestFilterVisitor.r_in
      rw [h]
      simp [hlb, hlen2, hdec, hall, ManifestFilterVisitor.ROWS_CANNOT_MATCH]
    · intro ub upper hub hdecu hallu
      unfold ManifestFilterVisitor.r_in
      rw [h]
      cases hall : literals.all (fun d => datumLt d lower) <;>
        simp [hlb, hlen2, hdec, hub, hdecu, hall, hallu,
          ManifestFilterVisitor.ROWS_CANNOT_MATCH]
    · intro hall hupper
      unfold ManifestFilterVisitor.r_in
      rw [h]
      rcases hupper with hub | ⟨ub, upper, hub, hdecu, hallu⟩
      · simp [hlb, hlen2, hdec, hall, hub, ManifestFilterVisitor.ROWS_MIGHT_MATCH]
      · simp [hlb, hlen2, hdec, hall, hub, hdecu, hallu,
          ManifestFilterVisitor.ROWS_MIGHT_MATCH]

/-- Witness for C7 at a concrete input: `In(id, {5, 6})` on the `id`
summary with decoded bounds 30 and 79 prunes, every member lying below the
lower bound. -/
theorem c7_in_rule_witness :
    ManifestFilterVisitor.r_in [id_summary] ⟨0, ⟨.primitive .int⟩⟩
      [⟨.int 5⟩, ⟨.int 6⟩] = Except.ok false :=
  ((c7_in_rule [id_summary] ⟨0, ⟨.primitive .int⟩⟩ [⟨.int 5⟩, ⟨.int 6⟩]
      id_summary rfl).2.2 [30, 0, 0, 0] ⟨.int 30⟩ rfl rfl (by decide)).1 (by decide)

/-- C8 counterexample: with either bound absent, the prefix leaves
short-circuit to their boolean verdict BEFORE inspecting the literal, so a
non-string literal yields cannot-match from StartsWith and might-match
from NotStartsWith - not the Unexpected error the claim asserts for every
field summary. -/
theorem c8_counterexample :
    ManifestFilterVisitor.starts_with [all_nulls_missing_nan_summary]
      ⟨0, ⟨.primitive .int⟩⟩ ⟨.int 3⟩ = Except.ok false ∧
    ManifestFilterVisitor.not_starts_with [all_nulls_missing_nan_summary]
      ⟨0, ⟨.primitive .int⟩⟩ ⟨.int 3⟩ = Except.ok true :=
  ⟨rfl, rfl⟩

/-- C8 as amended: a StartsWith leaf whose literal is not string-typed
returns an Unexpected error whenever both bounds are present, and a
NotStartsWith leaf does so whenever additionally the field records no
null; in the short-circuit cases the literal is never inspected and a
boolean verdict is returned. -/
theorem c8_non_string_unexpected_amended (partitions : List FieldSummary)
    (reference : BoundReference) (d : Datum) (fs : FieldSummary)
    (lb ub : List Nat)
    (h : ManifestFilterVisitor.field_summary_for_reference partitions reference =
      Except.ok fs)
    (hlb : fs.lower_bound = some lb) (hub : fs.upper_bound = some ub)
    (hd : d.is_string_value = false) :
    ManifestFilterVisitor.starts_with partitions reference d =
      Except.error (.err .unexpected "Cannot perform starts_with on non-string value")
    ∧ (fs.contains_null = false →
       ManifestFilterVisitor.not_starts_with partitions reference d =
         Except.error
           (.err .unexpected "Cannot perform not_starts_with on non-string value")) := by
  have hstr : ∀ msg, ManifestFilterVisitor.datum_as_str d msg =
      Except.error (.err .unexpected msg) := by
    intro msg
    unfold Datum.is_string_value at hd
    unfold ManifestFilterVisitor.datum_as_str
    cases hl : d.literal <;> simp [hl] at hd ⊢
  constructor
  · unfold ManifestFilterVisitor.starts_with
    rw [h]
    simp [hlb, hub, hstr]
  · intro hnull
    unfold ManifestFilterVisitor.not_starts_with
    rw [h]
    simp [hlb, hub, hnull, hstr]

/-- Witness for C8 as amended, at a concrete input: an integer literal
against a no-null string column with both bounds "a". -/
theorem c8_non_string_unexpected_amended_witness :
    ManifestFilterVisitor.starts_with
      [⟨false, none, some [97], some [97]⟩] ⟨0, ⟨.primitive .string⟩⟩ ⟨.int 0⟩ =
      Except.error (.err .unexpected "Cannot perform starts_with on non-string value")
    ∧ ManifestFilterVisitor.not_starts_with
      [⟨false, none, some [97], some [97]⟩] ⟨0, ⟨.primitive .string⟩⟩ ⟨.int 0⟩ =
      Except.error
        (.err .unexpected "Cannot perform not_starts_with on non-string value") :=
  ⟨(c8_non_string_unexpected_amended [⟨false, none, some [97], some [97]⟩]
      ⟨0, ⟨.primitive .string⟩⟩ ⟨.int 0⟩ ⟨false, none, some [97], some [97]⟩
      [97] [97] rfl rfl rfl rfl).1,
   (c8_non_string_unexpected_amended [⟨false, none, some [97], some [97]⟩]
      ⟨0, ⟨.primitive .string⟩⟩ ⟨.int 0⟩ ⟨false, none, some [97], some [97]⟩
      [97] [97] rfl rfl rfl rfl).2 rfl⟩

end Iceberg
